import Mathlib

/-!
# Verification of the `color_converter` plugin

Shallow embedding of `src/color_converter.py` (an albert launcher plugin that
converts colors between the systems rgb / hex / yiq / hls / hsl / hsv).

Python floats are modelled as exact rationals (`ℚ`); Python strings as
`List Char`; functions that can raise return `Except Err _`; the function
`float()`'s failure (`ValueError`) and `False`-subscripting (`TypeError`)
are modelled as `Option` / `Except`.  The colorsys functions the script
star-imports (`hls_to_rgb`, `rgb_to_hls`, `hsv_to_rgb`, `rgb_to_hsv`,
`yiq_to_rgb`, `rgb_to_yiq`) are embedded from the CPython `colorsys`
module of the plugin's era.
-/

namespace ColorConverter

/-- Python's `%` operator on numbers (`x % y = x - y*⌊x/y⌋`), which for a
positive modulus returns a value in `[0, y)`.  Used for `h % 360` and the
`% 1.0` inside colorsys. -/
def pmod (x y : ℚ) : ℚ := x - y * ⌊x / y⌋

/-- Python's `int()` applied to a float: truncation toward zero. -/
def pyInt (x : ℚ) : ℤ := if 0 ≤ x then ⌊x⌋ else -⌊-x⌋

/-- Python's `min(hi, max(lo, x))` clamp used throughout the script. -/
def clamp (lo hi x : ℚ) : ℚ := min hi (max lo x)

/-! ## colorsys (CPython standard library, star-imported by the script) -/

/-- colorsys `_v(m1, m2, hue)`: the piecewise-linear helper of
`hls_to_rgb`. -/
def hlsV (m1 m2 hue : ℚ) : ℚ :=
  let h := pmod hue 1
  if h < 1/6 then m1 + (m2 - m1) * h * 6
  else if h < 1/2 then m2
  else if h < 2/3 then m1 + (m2 - m1) * (2/3 - h) * 6
  else m1

/-- colorsys `hls_to_rgb(h, l, s)`. -/
def hls_to_rgb (h l s : ℚ) : ℚ × ℚ × ℚ :=
  if s = 0 then (l, l, l)
  else
    let m2 := if l ≤ 1/2 then l * (1 + s) else l + s - l * s
    let m1 := 2 * l - m2
    (hlsV m1 m2 (h + 1/3), hlsV m1 m2 h, hlsV m1 m2 (h - 1/3))

/-- colorsys `rgb_to_hls(r, g, b)`. -/
def rgb_to_hls (r g b : ℚ) : ℚ × ℚ × ℚ :=
  let maxc := max r (max g b)
  let minc := min r (min g b)
  let l := (minc + maxc) / 2
  if minc = maxc then (0, l, 0)
  else
    let s := if l ≤ 1/2 then (maxc - minc) / (maxc + minc)
             else (maxc - minc) / (2 - maxc - minc)
    let rc := (maxc - r) / (maxc - minc)
    let gc := (maxc - g) / (maxc - minc)
    let bc := (maxc - b) / (maxc - minc)
    let h := if r = maxc then bc - gc
             else if g = maxc then 2 + rc - bc
             else 4 + gc - rc
    (pmod (h / 6) 1, l, s)

/-- colorsys `hsv_to_rgb(h, s, v)` (`s` is saturation, `v` is value —
this argument order is the "standard HSV-to-RGB formula"). -/
def hsv_to_rgb (h s v : ℚ) : ℚ × ℚ × ℚ :=
  if s = 0 then (v, v, v)
  else
    let i0 := pyInt (h * 6)
    let f := h * 6 - i0
    let p := v * (1 - s)
    let q := v * (1 - s * f)
    let t := v * (1 - s * (1 - f))
    let i := Int.emod i0 6
    if i = 0 then (v, t, p)
    else if i = 1 then (q, v, p)
    else if i = 2 then (p, v, t)
    else if i = 3 then (p, q, v)
    else if i = 4 then (t, p, v)
    else (v, p, q)

/-- colorsys `rgb_to_hsv(r, g, b)` (the "standard RGB-to-HSV conversion";
the script imports it but never calls it). -/
def rgb_to_hsv (r g b : ℚ) : ℚ × ℚ × ℚ :=
  let maxc := max r (max g b)
  let minc := min r (min g b)
  let v := maxc
  if minc = maxc then (0, 0, v)
  else
    let s := (maxc - minc) / maxc
    let rc := (maxc - r) / (maxc - minc)
    let gc := (maxc - g) / (maxc - minc)
    let bc := (maxc - b) / (maxc - minc)
    let h := if r = maxc then bc - gc
             else if g = maxc then 2 + rc - bc
             else 4 + gc - rc
    (pmod (h / 6) 1, s, v)

/-- colorsys `rgb_to_yiq(r, g, b)`. -/
def rgb_to_yiq (r g b : ℚ) : ℚ × ℚ × ℚ :=
  (3/10 * r + 59/100 * g + 11/100 * b,
   6/10 * r - 28/100 * g - 32/100 * b,
   21/100 * r - 52/100 * g + 31/100 * b)

/-- colorsys `yiq_to_rgb(y, i, q)` (coefficients and the `[0,1]` clamp of
the CPython version the plugin's era shipped). -/
def yiq_to_rgb (y i q : ℚ) : ℚ × ℚ × ℚ :=
  (clamp 0 1 (y + 948262/1000000 * i + 624013/1000000 * q),
   clamp 0 1 (y - 276066/1000000 * i - 639810/1000000 * q),
   clamp 0 1 (y - 1105450/1000000 * i + 1729860/1000000 * q))

/-! ## Hex helpers (script functions `rgb_to_hex` / `hex_to_rgb`) -/

/-- Value of a hexadecimal digit accepted by Python's `int(·, 16)`
(`0`-`9`, `a`-`f`, `A`-`F`); `none` models the `ValueError` raised on any
other character. -/
def hexDigitVal (c : Char) : Option ℕ :=
  if '0' ≤ c ∧ c ≤ '9' then some (c.toNat - '0'.toNat)
  else if 'a' ≤ c ∧ c ≤ 'f' then some (c.toNat - 'a'.toNat + 10)
  else if 'A' ≤ c ∧ c ≤ 'F' then some (c.toNat - 'A'.toNat + 10)
  else none

/-- Python `"{0:02x}".format n` for a nonnegative integer: lowercase hex,
left-padded with `0` to at least two digits. -/
def pyHex02 (n : ℕ) : List Char :=
  let ds := Nat.toDigits 16 n
  if ds.length < 2 then '0' :: ds else ds

/-- Exceptions the script can raise (modelled). -/
inductive Err where
  /-- e.g. subscripting `False`, or unpacking a tuple of the wrong arity -/
  | typeError
  /-- e.g. `int(s, 16)` on a non-hex string -/
  | valueError
  /-- `os.remove` on a missing file -/
  | osError
deriving DecidableEq, Repr

/-- Python `int(s, 16)` for a string of (exactly two, in this script)
characters; `Err.valueError` on an empty string or a non-hex character. -/
def int16 (s : List Char) : Except Err ℕ :=
  match s with
  | [c1, c2] =>
    match hexDigitVal c1, hexDigitVal c2 with
    | some a, some b => .ok (16 * a + b)
    | _, _ => .error .valueError
  | _ => .error .valueError

/-- Script `rgb_to_hex(r, g, b)`: clamp each channel scaled by 255 into
`[0,255]`, truncate to int, render as `#rrggbb`. -/
def rgb_to_hex (r g b : ℚ) : List Char :=
  let n := fun x : ℚ => (pyInt (min 255 (max 0 (x * 255)))).toNat
  '#' :: (pyHex02 (n r) ++ pyHex02 (n g) ++ pyHex02 (n b))

/-- Script `hex_to_rgb(hex)`: strip leading `#`s, double a 3-digit form,
parse the byte pairs at offsets 0, 2, 4 and divide by 255. -/
def hex_to_rgb (s : List Char) : Except Err (ℚ × ℚ × ℚ) :=
  let h0 := s.dropWhile (· == '#')
  let h := if h0.length = 3 then h0.flatMap (fun c => [c, c]) else h0
  match int16 ((h.drop 0).take 2), int16 ((h.drop 2).take 2),
        int16 ((h.drop 4).take 2) with
  | .ok a, .ok b, .ok c => .ok ((a : ℚ) / 255, (b : ℚ) / 255, (c : ℚ) / 255)
  | .error e, _, _ => .error e
  | _, .error e, _ => .error e
  | _, _, .error e => .error e

/-! ## HLS/HSL/HSV helpers and the converter tables -/

/-- Script `toggleHSLHLS(h, s_l_1, s_l_2)`: swap the two non-hue fields. -/
def toggleHSLHLS (h a b : ℚ) : ℚ × ℚ × ℚ := (h, b, a)

/-- Script `transformHSLHSV(h, x, y)`: rescale a normalized triple to
degrees / percent. -/
def transformHSLHSV (h a b : ℚ) : ℚ × ℚ × ℚ := (h * 360, a * 100, b * 100)

/-- `converters_from["rgb"]`. -/
def converters_from_rgb (r g b : ℚ) : ℚ × ℚ × ℚ := (r / 255, g / 255, b / 255)

/-- `converters_from["hls"]`: `lambda h, l, s: hls_to_rgb(h % 360 / 360, l / 100, s / 100)`. -/
def converters_from_hls (h l s : ℚ) : ℚ × ℚ × ℚ :=
  hls_to_rgb (pmod h 360 / 360) (l / 100) (s / 100)

/-- `converters_from["hsl"]`: `lambda h, s, l: hls_to_rgb(h % 360 / 360, l / 100, s / 100)`. -/
def converters_from_hsl (h s l : ℚ) : ℚ × ℚ × ℚ :=
  hls_to_rgb (pmod h 360 / 360) (l / 100) (s / 100)

/-- `converters_from["hsv"]`: `lambda h, s, v: hsv_to_rgb(h % 360 / 360, v / 100, s / 100)`
(note: the script passes `v / 100` in colorsys's saturation position and
`s / 100` in its value position). -/
def converters_from_hsv (h s v : ℚ) : ℚ × ℚ × ℚ :=
  hsv_to_rgb (pmod h 360 / 360) (v / 100) (s / 100)

/-- `converters_to["rgb"]`. -/
def converters_to_rgb (r g b : ℚ) : ℚ × ℚ × ℚ := (r * 255, g * 255, b * 255)

/-- `converters_to["hls"]`: `lambda r, g, b: transformHSLHSV(*rgb_to_hls(r, g, b))`. -/
def converters_to_hls (r g b : ℚ) : ℚ × ℚ × ℚ :=
  let t := rgb_to_hls r g b
  transformHSLHSV t.1 t.2.1 t.2.2

/-- `converters_to["hsl"]`: `lambda r, g, b: toggleHSLHLS(*transformHSLHSV(*rgb_to_hls(r, g, b)))`. -/
def converters_to_hsl (r g b : ℚ) : ℚ × ℚ × ℚ :=
  let t := rgb_to_hls r g b
  let u := transformHSLHSV t.1 t.2.1 t.2.2
  toggleHSLHLS u.1 u.2.1 u.2.2

/-- `converters_to["hsv"]`: `lambda r, g, b: transformHSLHSV(*rgb_to_hls(r, g, b))`
(the script calls `rgb_to_hls` here, not `rgb_to_hsv`). -/
def converters_to_hsv (r g b : ℚ) : ℚ × ℚ × ℚ :=
  let t := rgb_to_hls r g b
  transformHSLHSV t.1 t.2.1 t.2.2

/-! ## Parsers -/

/-- One pass of Python `str.replace(pat, "")`: delete every (leftmost,
non-overlapping) occurrence of `pat`.  Fuel-structured so that the kernel
can evaluate it; `fuel = s.length` suffices for a nonempty pattern. -/
def stripOccGo (pat : List Char) : ℕ → List Char → List Char
  | 0, s => s
  | _ + 1, [] => []
  | fuel + 1, c :: rest =>
    if pat.isPrefixOf (c :: rest) ∧ pat ≠ [] then
      stripOccGo pat fuel ((c :: rest).drop pat.length)
    else c :: stripOccGo pat fuel rest

/-- Python `s.replace(pat, "")` for the nonempty patterns in
`remove_strings`. -/
def stripOcc (pat s : List Char) : List Char := stripOccGo pat s.length s

/-- The six system tags, in the insertion order of the script's
dictionaries. -/
def systemsList : List (List Char) :=
  ["rgb".toList, "hex".toList, "yiq".toList,
   "hls".toList, "hsl".toList, "hsv".toList]

/-- `remove_strings = list(dict.keys(converters_from)) + ["(", ")", " ", "%", "°"]`. -/
def remove_strings : List (List Char) :=
  systemsList ++ [['('], [')'], [' '], ['%'], ['°']]

/-- Python `s.split(",")`. -/
def splitComma : List Char → List (List Char)
  | [] => [[]]
  | c :: rest =>
    if c = ',' then [] :: splitComma rest
    else
      match splitComma rest with
      | [] => [[c]]
      | g :: gs => (c :: g) :: gs

/-- Character is an ASCII decimal digit. -/
def isDigitChar (c : Char) : Bool := '0' ≤ c && c ≤ '9'

/-- Numeric value of a list of decimal digits. -/
def digitsVal (s : List Char) : ℕ :=
  s.foldl (fun acc c => 10 * acc + (c.toNat - '0'.toNat)) 0

/-- Python `float(s)` restricted to the plain decimal literals
(`[+-]? digits [. digits]` with at least one digit) that this script's
inputs use; `none` models the `ValueError` on anything unparsable. -/
def pyFloat (s : List Char) : Option ℚ :=
  let (sign, t) : ℚ × List Char :=
    match s with
    | '+' :: r => (1, r)
    | '-' :: r => (-1, r)
    | _ => (1, s)
  let ip := t.takeWhile isDigitChar
  let rest := t.drop ip.length
  match rest with
  | [] => if ip = [] then none else some (sign * digitsVal ip)
  | '.' :: fr =>
    if fr.all isDigitChar ∧ (ip ≠ [] ∨ fr ≠ []) then
      some (sign * ((digitsVal ip : ℚ) + (digitsVal fr : ℚ) / 10 ^ fr.length))
    else none
  | _ => none

/-- Script `baseParser(string)`: delete every `remove_strings` substring,
split on commas, require exactly three fields, convert each with
`float`; `none` models the `False` returned on wrong arity or a
non-numeric field. -/
def baseParser (s : List Char) : Option (ℚ × ℚ × ℚ) :=
  let s := remove_strings.foldl (fun acc pat => stripOcc pat acc) s
  match (splitComma s).map pyFloat with
  | [some a, some b, some c] => some (a, b, c)
  | _ => none

/-- Script `minMaxParser(string, minimum, maximum)`. -/
def minMaxParser (s : List Char) (lo hi : ℚ) : Option (ℚ × ℚ × ℚ) :=
  match baseParser s with
  | none => none
  | some (a, b, c) => some (clamp lo hi a, clamp lo hi b, clamp lo hi c)

/-- Anchored match of `hex_pattern = ^([a-zA-Z0-9]{3}|[a-zA-Z0-9]{6})$`:
exactly 3 or 6 ASCII alphanumeric characters. -/
def isAlnumChar (c : Char) : Bool :=
  ('0' ≤ c && c ≤ '9') || ('a' ≤ c && c ≤ 'z') || ('A' ≤ c && c ≤ 'Z')

/-- `hex_pattern.match(hex)` as a Boolean (the pattern is anchored on
both sides). -/
def hexPatternMatch (s : List Char) : Bool :=
  (s.length == 3 || s.length == 6) && s.all isAlnumChar

/-- Script `hexParser(string)`: strip leading spaces, reject the empty
string, strip leading `#`s, require length 3 or 6 and a `hex_pattern`
match; `none` models the `False` sentinel. -/
def hexParser (s : List Char) : Option (List Char) :=
  let s1 := s.dropWhile (· == ' ')
  if s1.length = 0 then none
  else
    let h := s1.dropWhile (· == '#')
    if h.length = 3 ∨ h.length = 6 then
      if hexPatternMatch h then some h else none
    else none

/-- Script `HLSHSVParser(string)`: wrap the hue with `% 360` and clamp
the other two fields into `[0, 100]`.  The script subscripts the result
of `baseParser` without checking it, so a failed `baseParser` makes
`color[0]` raise a `TypeError` (`bool` is not subscriptable) — modelled
as `Except.error .typeError`. -/
def HLSHSVParser (s : List Char) : Except Err (ℚ × ℚ × ℚ) :=
  match baseParser s with
  | none => .error .typeError
  | some (a, b, c) => .ok (pmod a 360, clamp 0 100 b, clamp 0 100 c)

/-! ## Values, display strings, items -/

/-- A Python value a parser or converter may produce: a 3-tuple of
floats, a 1-tuple holding a string (as `hexParser` returns), or a bare
string (as `rgb_to_hex` returns). -/
inductive PyVal where
  | tup3 (a b c : ℚ)
  | tup1 (s : List Char)
  | pystr (s : List Char)
deriving DecidableEq, Repr

/-- The display text built by `colorString`.  The numeric renderings go
through Python `"{:g}"` float formatting, which we keep symbolic: a
`numeric` node records the system name, the exact numeric triple, and
whether the `%`-suffixed format is used.  `invalid` marks the
argument combinations `colorString` would crash on (never produced by
`run`). -/
inductive ColorText where
  | lit (s : List Char)
  | numeric (system : List Char) (a b c : ℚ) (percent : Bool)
  | invalid
deriving DecidableEq, Repr

/-- Script `colorString(system, color)`. -/
def colorString (system : List Char) (v : PyVal) : ColorText :=
  if system = "hex".toList then
    match v with
    | .tup1 s => .lit ('#' :: s)
    | .pystr s => .lit s
    | .tup3 .. => .invalid
  else
    match v with
    | .tup3 a b c =>
      .numeric system a b c
        (system = "hls".toList ∨ system = "hsl".toList ∨ system = "hsv".toList)
    | _ => .invalid

/-- `converters_to` as the ordered association list the script iterates
over (`dict.items()` in insertion order), with each converter's result
wrapped as a `PyVal`. -/
def convertersToList : List (List Char × (ℚ → ℚ → ℚ → PyVal)) :=
  [("rgb".toList, fun r g b => .tup3 (r * 255) (g * 255) (b * 255)),
   ("hex".toList, fun r g b => .pystr (rgb_to_hex r g b)),
   ("yiq".toList, fun r g b =>
      let t := rgb_to_yiq r g b; .tup3 t.1 t.2.1 t.2.2),
   ("hls".toList, fun r g b =>
      let t := converters_to_hls r g b; .tup3 t.1 t.2.1 t.2.2),
   ("hsl".toList, fun r g b =>
      let t := converters_to_hsl r g b; .tup3 t.1 t.2.1 t.2.2),
   ("hsv".toList, fun r g b =>
      let t := converters_to_hsv r g b; .tup3 t.1 t.2.1 t.2.2)]

/-- `parsers[tag](string)` for a recognized tag: `Except` for the
raisable `HLSHSVParser`, `.ok none` for a parser's `False`. -/
def runParser (tag s : List Char) : Except Err (Option PyVal) :=
  if tag = "rgb".toList then
    .ok ((minMaxParser s 0 255).map fun t => .tup3 t.1 t.2.1 t.2.2)
  else if tag = "hex".toList then
    .ok ((hexParser s).map .tup1)
  else if tag = "yiq".toList then
    .ok ((minMaxParser s (-1) 1).map fun t => .tup3 t.1 t.2.1 t.2.2)
  else
    (HLSHSVParser s).map fun t => some (.tup3 t.1 t.2.1 t.2.2)

/-- `converters_from[tag](*color)`: dispatch on the tag; a shape
mismatch between the parsed value and the converter's arity would be a
Python `TypeError` (unreachable from `run`). -/
def convFrom (tag : List Char) (v : PyVal) : Except Err (ℚ × ℚ × ℚ) :=
  if tag = "rgb".toList then
    match v with
    | .tup3 r g b => .ok (converters_from_rgb r g b)
    | _ => .error .typeError
  else if tag = "hex".toList then
    match v with
    | .tup1 s => hex_to_rgb s
    | _ => .error .typeError
  else if tag = "yiq".toList then
    match v with
    | .tup3 y i q => .ok (yiq_to_rgb y i q)
    | _ => .error .typeError
  else if tag = "hls".toList then
    match v with
    | .tup3 h l s => .ok (converters_from_hls h l s)
    | _ => .error .typeError
  else if tag = "hsl".toList then
    match v with
    | .tup3 h s l => .ok (converters_from_hsl h s l)
    | _ => .error .typeError
  else
    match v with
    | .tup3 h s v' => .ok (converters_from_hsv h s v')
    | _ => .error .typeError

/-- An albert `Item` as `buildItem` fills it: completion string, display
text, the two pieces of the `"Converting {} to {}"` subtext, the
clipboard payload, and the icon file. -/
structure Item where
  completion : List Char
  text : ColorText
  subSource : ColorText
  subDest : List Char
  clip : ColorText
  icon : ℕ
deriving DecidableEq, Repr

/-- Script `buildItem(...)`. -/
def buildItem (completion source dest : List Char) (sourceColor : PyVal)
    (destColor : PyVal) (icon : ℕ) : Item :=
  let text := colorString dest destColor
  { completion := completion
    text := text
    subSource := colorString source sourceColor
    subDest := dest
    clip := text
    icon := icon }

/-! ## Orchestrator (`run` / `handleQuery`) and the temp-file state -/

/-- The filesystem/module state `run` mutates: a counter generating fresh
temp-file names, the set of live temp files, and the module-global
`color_file_location` pointer. -/
structure FS where
  next : ℕ
  live : List ℕ
  pointer : Option ℕ
deriving DecidableEq, Repr

/-- The albert query object: `query.string` and `query.rawString`. -/
structure Query where
  string : List Char
  rawString : List Char
deriving DecidableEq, Repr

/-- The part of `run` after the old temp file was deleted: parse, check
`if not color`, convert to rgb, create the new temp file (`colorFile`),
and fan out over `converters_to`. -/
def runAfterDelete (st : FS) (source : List Char) (q : Query) :
    FS × Except Err (Option (List Item)) :=
  match runParser source (q.string.drop 3) with
  | .error e => (st, .error e)
  | .ok none => (st, .ok none)
  | .ok (some color) =>
    match convFrom source color with
    | .error e => (st, .error e)
    | .ok rgb =>
      let icon := st.next
      let st2 : FS := ⟨st.next + 1, st.next :: st.live, some st.next⟩
      let items :=
        (convertersToList.filter (fun p => p.1 ≠ source)).map fun p =>
          buildItem q.rawString source p.1 color (p.2 rgb.1 rgb.2.1 rgb.2.2)
            icon
      (st2, .ok (some items))

/-- Script `run(query)`: recognize the 3-character tag, delete the old
temp file (clearing the pointer only after a successful `os.remove`),
then `runAfterDelete`.  `.ok none` is Python's bare `return`. -/
def runM (st : FS) (q : Query) : FS × Except Err (Option (List Item)) :=
  let source := q.string.take 3
  if source ∈ systemsList then
    match st.pointer with
    | some f =>
      if f ∈ st.live then
        runAfterDelete ⟨st.next, st.live.erase f, none⟩ source q
      else (st, .error .osError)
    | none => runAfterDelete st source q
  else (st, .ok none)

/-- A line sent to the host's log sinks; `critical e` models
`critical(''.join(traceback.format_exception(...)))` for exception `e`. -/
inductive LogEntry where
  | critical (e : Err)
deriving DecidableEq, Repr

/-- Script `handleQuery(query)`: run `run`, catching any exception,
logging its traceback at critical level and returning `None`. -/
def handleQueryM (st : FS) (q : Query) :
    FS × Option (List Item) × List LogEntry :=
  match runM st q with
  | (st', .ok v) => (st', v, [])
  | (st', .error e) => (st', none, [.critical e])

/-- The state after a sequence of `run` invocations. -/
def runSeq (st : FS) (qs : List Query) : FS :=
  qs.foldl (fun s q => (runM s q).1) st

/-- The single-slot invariant of claim C9: the live temp files are
exactly the one the module pointer names, and every live file was
created by an earlier `colorFile` call (so its id is below `next`). -/
def slotInv (st : FS) : Prop :=
  st.live = st.pointer.toList ∧ ∀ f ∈ st.live, f < st.next

instance (st : FS) : Decidable (slotInv st) := by
  unfold slotInv; infer_instance

/-- Projection used to state concrete `run` results: the item list of a
normal, recognized run (`[]` otherwise). -/
def itemsOf (x : Except Err (Option (List Item))) : List Item :=
  match x with
  | .ok (some l) => l
  | _ => []

/-- Whether `run` returned a list of results by normal return. -/
def isOkSome (x : Except Err (Option (List Item))) : Bool :=
  match x with
  | .ok (some _) => true
  | _ => false

/-- Round trip of a parsed `"hls"` triple through canonical RGB:
`converters_to["hls"]` after `converters_from["hls"]`. -/
def roundtrip_hls (h l s : ℚ) : ℚ × ℚ × ℚ :=
  let rgb := converters_from_hls h l s
  converters_to_hls rgb.1 rgb.2.1 rgb.2.2

/-- Round trip of a parsed `"hsl"` triple through canonical RGB. -/
def roundtrip_hsl (h s l : ℚ) : ℚ × ℚ × ℚ :=
  let rgb := converters_from_hsl h s l
  converters_to_hsl rgb.1 rgb.2.1 rgb.2.2

/-- Round trip of a parsed `"hsv"` triple through canonical RGB. -/
def roundtrip_hsv (h s v : ℚ) : ℚ × ℚ × ℚ :=
  let rgb := converters_from_hsv h s v
  converters_to_hsv rgb.1 rgb.2.1 rgb.2.2

instance {ε α : Type} [DecidableEq ε] [DecidableEq α] :
    DecidableEq (Except ε α) := fun a b =>
  match a, b with
  | .ok x, .ok y =>
    if h : x = y then .isTrue (by rw [h])
    else .isFalse (by intro hh; cases hh; exact h rfl)
  | .error x, .error y =>
    if h : x = y then .isTrue (by rw [h])
    else .isFalse (by intro hh; cases hh; exact h rfl)
  | .ok _, .error _ => .isFalse (by intro h; cases h)
  | .error _, .ok _ => .isFalse (by intro h; cases h)

end ColorConverter

namespace ColorConverter

theorem pmod_one_eq_fract (x : ℚ) : pmod x 1 = Int.fract x := by
  rw [pmod, Int.fract, div_one, one_mul]

theorem pmod_eq_self (x y : ℚ) (hy : 0 < y) (h0 : 0 ≤ x) (h1 : x < y) :
    pmod x y = x := by
  have hfloor : ⌊x / y⌋ = 0 := by
    rw [Int.floor_eq_zero_iff]
    constructor
    · positivity
    · rw [div_lt_one hy]; exact h1
  simp [pmod, hfloor]

/-! ## Helper lemmas for the HLS round trip -/

theorem pmod_add_one (x : ℚ) : pmod (x + 1) 1 = pmod x 1 := by
  rw [pmod_one_eq_fract, pmod_one_eq_fract]
  simp

theorem pmod_sub_one (x : ℚ) : pmod (x - 1) 1 = pmod x 1 := by
  rw [pmod_one_eq_fract, pmod_one_eq_fract]
  simp

theorem hlsV_add_one (m1 m2 x : ℚ) : hlsV m1 m2 (x + 1) = hlsV m1 m2 x := by
  simp only [hlsV, pmod_add_one]

theorem hlsV_sub_one (m1 m2 x : ℚ) : hlsV m1 m2 (x - 1) = hlsV m1 m2 x := by
  simp only [hlsV, pmod_sub_one]

theorem hlsV_eval (m1 m2 x : ℚ) (h0 : 0 ≤ x) (h1 : x < 1) :
    hlsV m1 m2 x =
      if x < 1/6 then m1 + (m2 - m1) * x * 6
      else if x < 1/2 then m2
      else if x < 2/3 then m1 + (m2 - m1) * (2/3 - x) * 6
      else m1 := by
  simp only [hlsV, pmod_eq_self x 1 one_pos h0 h1]

theorem hlsV_up (m1 m2 x : ℚ) (h0 : 0 ≤ x) (h6 : x < 1/6) :
    hlsV m1 m2 x = m1 + (m2 - m1) * x * 6 := by
  rw [hlsV_eval m1 m2 x h0 (by linarith), if_pos h6]

theorem hlsV_top (m1 m2 x : ℚ) (h6 : 1/6 ≤ x) (h2 : x < 1/2) :
    hlsV m1 m2 x = m2 := by
  rw [hlsV_eval m1 m2 x (by linarith) (by linarith),
    if_neg (not_lt.mpr h6), if_pos h2]

theorem hlsV_down (m1 m2 x : ℚ) (h2 : 1/2 ≤ x) (h3 : x < 2/3) :
    hlsV m1 m2 x = m1 + (m2 - m1) * (2/3 - x) * 6 := by
  rw [hlsV_eval m1 m2 x (by linarith) (by linarith),
    if_neg (by linarith : ¬ x < 1/6), if_neg (not_lt.mpr h2), if_pos h3]

theorem hlsV_bot (m1 m2 x : ℚ) (h3 : 2/3 ≤ x) (h1 : x < 1) :
    hlsV m1 m2 x = m1 := by
  rw [hlsV_eval m1 m2 x (by linarith) h1,
    if_neg (by linarith : ¬ x < 1/6), if_neg (by linarith : ¬ x < 1/2),
    if_neg (not_lt.mpr h3)]

theorem hlsV_const (c x : ℚ) : hlsV c c x = c := by
  simp only [hlsV]
  split_ifs <;> ring

theorem ramp_le_top (m1 m2 c : ℚ) (hd : m1 < m2) (hc : c * 6 ≤ 1) :
    m1 + (m2 - m1) * c * 6 ≤ m2 := by
  nlinarith [mul_nonneg (by linarith : (0:ℚ) ≤ m2 - m1)
    (by linarith : (0:ℚ) ≤ 1 - c * 6)]

theorem ramp_lt_top (m1 m2 c : ℚ) (hd : m1 < m2) (hc : c * 6 < 1) :
    m1 + (m2 - m1) * c * 6 < m2 := by
  nlinarith [mul_pos (by linarith : (0:ℚ) < m2 - m1)
    (by linarith : (0:ℚ) < 1 - c * 6)]

theorem bot_le_ramp (m1 m2 c : ℚ) (hd : m1 < m2) (hc : 0 ≤ c) :
    m1 ≤ m1 + (m2 - m1) * c * 6 := by
  nlinarith [mul_nonneg (by linarith : (0:ℚ) ≤ m2 - m1) hc]

theorem pmod_div6_eq (x h : ℚ) (hx : x / 6 = h) (h0 : 0 ≤ h) (h1 : h < 1) :
    pmod (x / 6) 1 = h := by
  rw [hx, pmod_eq_self h 1 one_pos h0 h1]

theorem pmod_div6_eq_shift (x h : ℚ) (hx : x / 6 = h - 1) (h0 : 0 ≤ h)
    (h1 : h < 1) : pmod (x / 6) 1 = h := by
  rw [hx, pmod_sub_one, pmod_eq_self h 1 one_pos h0 h1]

theorem rgb_to_hls_eval_r (r g b M m : ℚ) (hmax : max r (max g b) = M)
    (hmin : min r (min g b) = m) (hne : ¬ m = M) (hr : r = M) :
    rgb_to_hls r g b =
      (pmod (((M - b) / (M - m) - (M - g) / (M - m)) / 6) 1, (m + M) / 2,
       if (m + M) / 2 ≤ 1/2 then (M - m) / (M + m)
       else (M - m) / (2 - M - m)) := by
  simp only [rgb_to_hls, hmax, hmin]
  rw [if_neg hne, if_pos hr]

theorem rgb_to_hls_eval_g (r g b M m : ℚ) (hmax : max r (max g b) = M)
    (hmin : min r (min g b) = m) (hne : ¬ m = M) (hrne : ¬ r = M)
    (hg : g = M) :
    rgb_to_hls r g b =
      (pmod ((2 + (M - r) / (M - m) - (M - b) / (M - m)) / 6) 1, (m + M) / 2,
       if (m + M) / 2 ≤ 1/2 then (M - m) / (M + m)
       else (M - m) / (2 - M - m)) := by
  simp only [rgb_to_hls, hmax, hmin]
  rw [if_neg hne, if_neg hrne, if_pos hg]

theorem rgb_to_hls_eval_b (r g b M m : ℚ) (hmax : max r (max g b) = M)
    (hmin : min r (min g b) = m) (hne : ¬ m = M) (hrne : ¬ r = M)
    (hgne : ¬ g = M) :
    rgb_to_hls r g b =
      (pmod ((4 + (M - g) / (M - m) - (M - r) / (M - m)) / 6) 1, (m + M) / 2,
       if (m + M) / 2 ≤ 1/2 then (M - m) / (M + m)
       else (M - m) / (2 - M - m)) := by
  simp only [rgb_to_hls, hmax, hmin]
  rw [if_neg hne, if_neg hrne, if_neg hgne]

theorem rgb_to_hls_hlsV (m1 m2 h : ℚ) (hm : m1 < m2) (h0 : 0 ≤ h) (h1 : h < 1) :
    rgb_to_hls (hlsV m1 m2 (h + 1/3)) (hlsV m1 m2 h) (hlsV m1 m2 (h - 1/3)) =
      (h, (m1 + m2) / 2,
       if (m1 + m2) / 2 ≤ 1/2 then (m2 - m1) / (m2 + m1)
       else (m2 - m1) / (2 - m2 - m1)) := by
  have hd : (0:ℚ) < m2 - m1 := by linarith
  have hdne : m2 - m1 ≠ 0 := ne_of_gt hd
  rcases lt_or_le h (1/6) with s6 | s6
  · -- sector 0 : 0 ≤ h < 1/6
    have er : hlsV m1 m2 (h + 1/3) = m2 :=
      hlsV_top _ _ _ (by linarith) (by linarith)
    have eg : hlsV m1 m2 h = m1 + (m2 - m1) * h * 6 := hlsV_up _ _ _ h0 s6
    have eb : hlsV m1 m2 (h - 1/3) = m1 := by
      rw [show h - 1/3 = (h + 2/3) - 1 by ring, hlsV_sub_one]
      exact hlsV_bot _ _ _ (by linarith) (by linarith)
    rw [er, eg, eb]
    have hgle : m1 + (m2 - m1) * h * 6 ≤ m2 :=
      ramp_le_top _ _ _ hm (by linarith)
    have hgge : m1 ≤ m1 + (m2 - m1) * h * 6 := bot_le_ramp _ _ _ hm h0
    have hmax : max m2 (max (m1 + (m2 - m1) * h * 6) m1) = m2 :=
      max_eq_left (max_le hgle hm.le)
    have hmin : min m2 (min (m1 + (m2 - m1) * h * 6) m1) = m1 := by
      rw [min_eq_right hgge, min_eq_right hm.le]
    rw [rgb_to_hls_eval_r _ _ _ _ _ hmax hmin hm.ne rfl]
    congr 1
    refine pmod_div6_eq _ _ ?_ h0 h1
    field_simp
    ring
  · rcases lt_or_le h (1/3) with s3 | s3
    · -- sector 1 : 1/6 ≤ h < 1/3
      have er : hlsV m1 m2 (h + 1/3) =
          m1 + (m2 - m1) * (2/3 - (h + 1/3)) * 6 :=
        hlsV_down _ _ _ (by linarith) (by linarith)
      have eg : hlsV m1 m2 h = m2 := hlsV_top _ _ _ s6 (by linarith)
      have eb : hlsV m1 m2 (h - 1/3) = m1 := by
        rw [show h - 1/3 = (h + 2/3) - 1 by ring, hlsV_sub_one]
        exact hlsV_bot _ _ _ (by linarith) (by linarith)
      rw [er, eg, eb]
      have hrle : m1 + (m2 - m1) * (2/3 - (h + 1/3)) * 6 ≤ m2 :=
        ramp_le_top _ _ _ hm (by linarith)
      have hrge : m1 ≤ m1 + (m2 - m1) * (2/3 - (h + 1/3)) * 6 :=
        bot_le_ramp _ _ _ hm (by linarith)
      have hmax :
          max (m1 + (m2 - m1) * (2/3 - (h + 1/3)) * 6) (max m2 m1) = m2 := by
        rw [max_eq_left hm.le]
        exact max_eq_right hrle
      have hmin :
          min (m1 + (m2 - m1) * (2/3 - (h + 1/3)) * 6) (min m2 m1) = m1 := by
        rw [min_eq_right hm.le]
        exact min_eq_right hrge
      rcases eq_or_lt_of_le s6 with heq | hgt
      · have hr : m1 + (m2 - m1) * (2/3 - (h + 1/3)) * 6 = m2 := by
          rw [← heq]; ring
        rw [rgb_to_hls_eval_r _ _ _ _ _ hmax hmin hm.ne hr]
        congr 1
        refine pmod_div6_eq _ _ ?_ h0 h1
        rw [← heq]
        field_simp
      · have hrlt : m1 + (m2 - m1) * (2/3 - (h + 1/3)) * 6 < m2 :=
          ramp_lt_top _ _ _ hm (by linarith)
        rw [rgb_to_hls_eval_g _ _ _ _ _ hmax hmin hm.ne (ne_of_lt hrlt) rfl]
        congr 1
        refine pmod_div6_eq _ _ ?_ h0 h1
        field_simp
        ring
    · rcases lt_or_le h (1/2) with s2 | s2
      · -- sector 2 : 1/3 ≤ h < 1/2
        have er : hlsV m1 m2 (h + 1/3) = m1 :=
          hlsV_bot _ _ _ (by linarith) (by linarith)
        have eg : hlsV m1 m2 h = m2 := hlsV_top _ _ _ (by linarith) s2
        have eb : hlsV m1 m2 (h - 1/3) = m1 + (m2 - m1) * (h - 1/3) * 6 :=
          hlsV_up _ _ _ (by linarith) (by linarith)
        rw [er, eg, eb]
        have hble : m1 + (m2 - m1) * (h - 1/3) * 6 ≤ m2 :=
          ramp_le_top _ _ _ hm (by linarith)
        have hbge : m1 ≤ m1 + (m2 - m1) * (h - 1/3) * 6 :=
          bot_le_ramp _ _ _ hm (by linarith)
        have hmax :
            max m1 (max m2 (m1 + (m2 - m1) * (h - 1/3) * 6)) = m2 := by
          rw [max_eq_left hble]
          exact max_eq_right hm.le
        have hmin :
            min m1 (min m2 (m1 + (m2 - m1) * (h - 1/3) * 6)) = m1 := by
          rw [min_eq_right hble]
          exact min_eq_left hbge
        rw [rgb_to_hls_eval_g _ _ _ _ _ hmax hmin hm.ne hm.ne rfl]
        congr 1
        refine pmod_div6_eq _ _ ?_ h0 h1
        field_simp
        ring
      · rcases lt_or_le h (2/3) with s23 | s23
        · -- sector 3 : 1/2 ≤ h < 2/3
          have er : hlsV m1 m2 (h + 1/3) = m1 :=
            hlsV_bot _ _ _ (by linarith) (by linarith)
          have eg : hlsV m1 m2 h = m1 + (m2 - m1) * (2/3 - h) * 6 :=
            hlsV_down _ _ _ s2 s23
          have eb : hlsV m1 m2 (h - 1/3) = m2 :=
            hlsV_top _ _ _ (by linarith) (by linarith)
          rw [er, eg, eb]
          have hgle : m1 + (m2 - m1) * (2/3 - h) * 6 ≤ m2 :=
            ramp_le_top _ _ _ hm (by linarith)
          have hgge : m1 ≤ m1 + (m2 - m1) * (2/3 - h) * 6 :=
            bot_le_ramp _ _ _ hm (by linarith)
          have hmax :
              max m1 (max (m1 + (m2 - m1) * (2/3 - h) * 6) m2) = m2 := by
            rw [max_eq_right hgle]
            exact max_eq_right hm.le
          have hmin :
              min m1 (min (m1 + (m2 - m1) * (2/3 - h) * 6) m2) = m1 := by
            rw [min_eq_left hgle]
            exact min_eq_left hgge
          rcases eq_or_lt_of_le s2 with heq | hgt
          · have hg : m1 + (m2 - m1) * (2/3 - h) * 6 = m2 := by
              rw [← heq]; ring
            rw [rgb_to_hls_eval_g _ _ _ _ _ hmax hmin hm.ne hm.ne hg]
            congr 1
            refine pmod_div6_eq _ _ ?_ h0 h1
            rw [← heq]
            field_simp
            ring
          · have hglt : m1 + (m2 - m1) * (2/3 - h) * 6 < m2 :=
              ramp_lt_top _ _ _ hm (by linarith)
            rw [rgb_to_hls_eval_b _ _ _ _ _ hmax hmin hm.ne hm.ne
              (ne_of_lt hglt)]
            congr 1
            refine pmod_div6_eq _ _ ?_ h0 h1
            field_simp
            ring
        · rcases lt_or_le h (5/6) with s56 | s56
          · -- sector 4 : 2/3 ≤ h < 5/6
            have er : hlsV m1 m2 (h + 1/3) =
                m1 + (m2 - m1) * (h - 2/3) * 6 := by
              rw [show h + 1/3 = (h - 2/3) + 1 by ring, hlsV_add_one]
              exact hlsV_up _ _ _ (by linarith) (by linarith)
            have eg : hlsV m1 m2 h = m1 := hlsV_bot _ _ _ s23 (by linarith)
            have eb : hlsV m1 m2 (h - 1/3) = m2 :=
              hlsV_top _ _ _ (by linarith) (by linarith)
            rw [er, eg, eb]
            have hrle : m1 + (m2 - m1) * (h - 2/3) * 6 ≤ m2 :=
              ramp_le_top _ _ _ hm (by linarith)
            have hrge : m1 ≤ m1 + (m2 - m1) * (h - 2/3) * 6 :=
              bot_le_ramp _ _ _ hm (by linarith)
            have hrlt : m1 + (m2 - m1) * (h - 2/3) * 6 < m2 :=
              ramp_lt_top _ _ _ hm (by linarith)
            have hmax :
                max (m1 + (m2 - m1) * (h - 2/3) * 6) (max m1 m2) = m2 := by
              rw [max_eq_right hm.le]
              exact max_eq_right hrle
            have hmin :
                min (m1 + (m2 - m1) * (h - 2/3) * 6) (min m1 m2) = m1 := by
              rw [min_eq_left hm.le]
              exact min_eq_right hrge
            rw [rgb_to_hls_eval_b _ _ _ _ _ hmax hmin hm.ne
              (ne_of_lt hrlt) hm.ne]
            congr 1
            refine pmod_div6_eq _ _ ?_ h0 h1
            field_simp
            ring
          · -- sector 5 : 5/6 ≤ h < 1
            have er : hlsV m1 m2 (h + 1/3) = m2 := by
              rw [show h + 1/3 = (h - 2/3) + 1 by ring, hlsV_add_one]
              exact hlsV_top _ _ _ (by linarith) (by linarith)
            have eg : hlsV m1 m2 h = m1 := hlsV_bot _ _ _ (by linarith) h1
            have eb : hlsV m1 m2 (h - 1/3) =
                m1 + (m2 - m1) * (2/3 - (h - 1/3)) * 6 :=
              hlsV_down _ _ _ (by linarith) (by linarith)
            rw [er, eg, eb]
            have hble : m1 + (m2 - m1) * (2/3 - (h - 1/3)) * 6 ≤ m2 :=
              ramp_le_top _ _ _ hm (by linarith)
            have hbge : m1 ≤ m1 + (m2 - m1) * (2/3 - (h - 1/3)) * 6 :=
              bot_le_ramp _ _ _ hm (by linarith)
            have hmax :
                max m2 (max m1 (m1 + (m2 - m1) * (2/3 - (h - 1/3)) * 6))
                  = m2 := by
              rw [max_eq_right hbge]
              exact max_eq_left hble
            have hmin :
                min m2 (min m1 (m1 + (m2 - m1) * (2/3 - (h - 1/3)) * 6))
                  = m1 := by
              rw [min_eq_left hbge]
              exact min_eq_right hm.le
            rw [rgb_to_hls_eval_r _ _ _ _ _ hmax hmin hm.ne rfl]
            congr 1
            refine pmod_div6_eq_shift _ _ ?_ h0 h1
            field_simp
            ring

theorem hls_roundtrip_unit (h l s : ℚ) (hh0 : 0 ≤ h) (hh1 : h < 1)
    (hl0 : 0 < l) (hl1 : l < 1) (hs0 : 0 < s) (hs1 : s ≤ 1) :
    rgb_to_hls (hls_to_rgb h l s).1 (hls_to_rgb h l s).2.1
      (hls_to_rgb h l s).2.2 = (h, l, s) := by
  have hsne : s ≠ 0 := ne_of_gt hs0
  have hlne : l ≠ 0 := ne_of_gt hl0
  by_cases hc : l ≤ 1/2
  · have hrgb : hls_to_rgb h l s =
        (hlsV (2*l - l*(1+s)) (l*(1+s)) (h + 1/3),
         hlsV (2*l - l*(1+s)) (l*(1+s)) h,
         hlsV (2*l - l*(1+s)) (l*(1+s)) (h - 1/3)) := by
      simp only [hls_to_rgb, if_neg hsne, if_pos hc]
    have hm : 2*l - l*(1+s) < l*(1+s) := by nlinarith
    rw [hrgb]
    simp only
    rw [rgb_to_hls_hlsV _ _ h hm hh0 hh1]
    have hsum : (2*l - l*(1+s) + l*(1+s)) / 2 = l := by ring
    rw [hsum, if_pos hc]
    simp only [Prod.mk.injEq]
    refine ⟨trivial, trivial, ?_⟩
    field_simp
    ring
  · have hrgb : hls_to_rgb h l s =
        (hlsV (2*l - (l + s - l*s)) (l + s - l*s) (h + 1/3),
         hlsV (2*l - (l + s - l*s)) (l + s - l*s) h,
         hlsV (2*l - (l + s - l*s)) (l + s - l*s) (h - 1/3)) := by
      simp only [hls_to_rgb, if_neg hsne, if_neg hc]
    have hm : 2*l - (l + s - l*s) < l + s - l*s := by nlinarith
    rw [hrgb]
    simp only
    rw [rgb_to_hls_hlsV _ _ h hm hh0 hh1]
    have hsum : (2*l - (l + s - l*s) + (l + s - l*s)) / 2 = l := by ring
    rw [hsum, if_neg hc]
    simp only [Prod.mk.injEq]
    refine ⟨trivial, trivial, ?_⟩
    have hden : (2 : ℚ) - (l + s - l*s) - (2*l - (l + s - l*s)) ≠ 0 := by
      intro hq
      have : l = 1 := by linarith
      exact absurd this (by linarith)
    rw [div_eq_iff hden]
    ring

theorem rgb_to_hls_diag (c : ℚ) : rgb_to_hls c c c = (0, c, 0) := by
  simp only [rgb_to_hls, max_self, min_self, if_pos rfl]
  norm_num

theorem hls_to_rgb_degen (h l s : ℚ) (hcase : s = 0 ∨ l = 0 ∨ l = 1) :
    hls_to_rgb h l s = (l, l, l) := by
  rcases hcase with hs | hl | hl
  · rw [hls_to_rgb, if_pos hs]
  · by_cases hs : s = 0
    · rw [hls_to_rgb, if_pos hs]
    · subst hl
      simp only [hls_to_rgb, if_neg hs]
      norm_num [hlsV_const]
  · by_cases hs : s = 0
    · rw [hls_to_rgb, if_pos hs]
    · subst hl
      simp only [hls_to_rgb, if_neg hs]
      norm_num
      exact ⟨hlsV_const _ _, hlsV_const _ _, hlsV_const _ _⟩

theorem hls_roundtrip_degen (h l s : ℚ) (hcase : s = 0 ∨ l = 0 ∨ l = 1) :
    rgb_to_hls (hls_to_rgb h l s).1 (hls_to_rgb h l s).2.1
      (hls_to_rgb h l s).2.2 = (0, l, 0) := by
  rw [hls_to_rgb_degen h l s hcase]
  exact rgb_to_hls_diag l

/-! ## Helper lemmas for the hex round trip -/

set_option maxRecDepth 8000

theorem pyHex02_shape :
    ∀ n < 256,
      (pyHex02 n).length = 2 ∧
      (pyHex02 n).all (fun c => !(c == '#')) = true := by decide

theorem int16_pyHex02 : ∀ n < 256, int16 (pyHex02 n) = .ok n := by decide

theorem hex_to_rgb_bytes (n1 n2 n3 : ℕ)
    (h1 : n1 < 256) (h2 : n2 < 256) (h3 : n3 < 256) :
    hex_to_rgb ('#' :: (pyHex02 n1 ++ pyHex02 n2 ++ pyHex02 n3)) =
      .ok ((n1 : ℚ) / 255, (n2 : ℚ) / 255, (n3 : ℚ) / 255) := by
  obtain ⟨a1, b1, e1⟩ := List.length_eq_two.mp (pyHex02_shape n1 h1).1
  obtain ⟨a2, b2, e2⟩ := List.length_eq_two.mp (pyHex02_shape n2 h2).1
  obtain ⟨a3, b3, e3⟩ := List.length_eq_two.mp (pyHex02_shape n3 h3).1
  have ha1 : (a1 == '#') = false := by
    have := (pyHex02_shape n1 h1).2
    rw [e1] at this
    simpa using fun h => absurd this (by simp [h])
  have key : '#' :: (pyHex02 n1 ++ pyHex02 n2 ++ pyHex02 n3) =
      '#' :: a1 :: b1 :: a2 :: b2 :: a3 :: b3 :: [] := by
    rw [e1, e2, e3]; rfl
  rw [key, hex_to_rgb]
  simp only [List.dropWhile, beq_self_eq_true, ha1, List.length_cons,
    List.length_nil]
  norm_num
  rw [show ([a1, b1] : List Char) = pyHex02 n1 from e1.symm,
      show ([a2, b2] : List Char) = pyHex02 n2 from e2.symm,
      show ([a3, b3] : List Char) = pyHex02 n3 from e3.symm,
      int16_pyHex02 n1 h1, int16_pyHex02 n2 h2, int16_pyHex02 n3 h3]

theorem channel_floor (x : ℚ) (h0 : 0 ≤ x) (h1 : x ≤ 1) :
    (pyInt (min 255 (max 0 (x * 255)))).toNat < 256 ∧
    |x - ((pyInt (min 255 (max 0 (x * 255)))).toNat : ℚ) / 255| ≤ 1 / 255 := by
  have hy0 : 0 ≤ x * 255 := by positivity
  have hy1 : x * 255 ≤ 255 := by nlinarith
  rw [max_eq_right hy0, min_eq_right hy1, pyInt, if_pos hy0]
  have hf0 : 0 ≤ ⌊x * 255⌋ := Int.floor_nonneg.mpr hy0
  have hf255 : ⌊x * 255⌋ ≤ 255 := by
    have h := Int.floor_le_floor (α := ℚ) hy1
    simpa using h
  refine ⟨by omega, ?_⟩
  have hcast : ((⌊x * 255⌋.toNat : ℕ) : ℚ) = ((⌊x * 255⌋ : ℤ) : ℚ) := by
    exact_mod_cast Int.toNat_of_nonneg hf0
  rw [hcast]
  have hle : ((⌊x * 255⌋ : ℤ) : ℚ) ≤ x * 255 := Int.floor_le (x * 255)
  have hlt : x * 255 < ((⌊x * 255⌋ : ℤ) : ℚ) + 1 := Int.lt_floor_add_one (x * 255)
  rw [abs_le]
  constructor <;> nlinarith

/-! ## Helper lemmas for the temp-file state -/

theorem runAfterDelete_state (st : FS) (src : List Char) (q : Query) :
    (runAfterDelete st src q).1 = st ∨
    (runAfterDelete st src q).1 =
      ⟨st.next + 1, st.next :: st.live, some st.next⟩ := by
  cases hp : runParser src (q.string.drop 3) with
  | error e => left; simp [runAfterDelete, hp]
  | ok o =>
    cases o with
    | none => left; simp [runAfterDelete, hp]
    | some c =>
      cases hc : convFrom src c with
      | error e => left; simp [runAfterDelete, hp, hc]
      | ok rgb => right; simp [runAfterDelete, hp, hc]

theorem runAfterDelete_success (st : FS) (src : List Char) (q : Query)
    (items : List Item)
    (h : (runAfterDelete st src q).2 = .ok (some items)) :
    (runAfterDelete st src q).1 =
      ⟨st.next + 1, st.next :: st.live, some st.next⟩ := by
  cases hp : runParser src (q.string.drop 3) with
  | error e => simp [runAfterDelete, hp] at h
  | ok o =>
    cases o with
    | none => simp [runAfterDelete, hp] at h
    | some c =>
      cases hc : convFrom src c with
      | error e => simp [runAfterDelete, hp, hc] at h
      | ok rgb => simp [runAfterDelete, hp, hc]

theorem runM_inv (st : FS) (q : Query) (h : slotInv st) :
    slotInv (runM st q).1 := by
  unfold runM
  by_cases hs : q.string.take 3 ∈ systemsList
  · simp only [if_pos hs]
    cases hp : st.pointer with
    | none =>
      have hlive : st.live = [] := by rw [h.1, hp]; rfl
      rcases runAfterDelete_state st (q.string.take 3) q with he | he <;>
        rw [he]
      · exact h
      · exact ⟨by simp [hlive, Option.toList], by simp [hlive]⟩
    | some f =>
      have hlive : st.live = [f] := by rw [h.1, hp]; rfl
      have hf : f ∈ st.live := by simp [hlive]
      simp only [if_pos hf]
      have herase : st.live.erase f = [] := by
        rw [hlive, List.erase_cons_head]
      rcases runAfterDelete_state ⟨st.next, st.live.erase f, none⟩
          (q.string.take 3) q with he | he <;> rw [he]
      · exact ⟨by simp [herase, Option.toList], by simp [herase]⟩
      · exact ⟨by simp [herase, Option.toList], by simp [herase]⟩
  · simp only [if_neg hs]
    exact h

theorem runM_success (st : FS) (q : Query) (items : List Item)
    (hinv : slotInv st) (h : (runM st q).2 = .ok (some items)) :
    (runM st q).1 = ⟨st.next + 1, [st.next], some st.next⟩ := by
  unfold runM at h ⊢
  by_cases hs : q.string.take 3 ∈ systemsList
  · simp only [if_pos hs] at h ⊢
    revert h
    cases hp : st.pointer with
    | none =>
      intro h
      have hlive : st.live = [] := by rw [hinv.1, hp]; rfl
      have := runAfterDelete_success st (q.string.take 3) q items h
      rw [this, hlive]
    | some f =>
      intro h
      have hlive : st.live = [f] := by rw [hinv.1, hp]; rfl
      have hf : f ∈ st.live := by simp [hlive]
      simp only [if_pos hf] at h ⊢
      have herase : st.live.erase f = [] := by
        rw [hlive, List.erase_cons_head]
      have := runAfterDelete_success ⟨st.next, st.live.erase f, none⟩
          (q.string.take 3) q items h
      rw [this, herase]
  · simp only [if_neg hs] at h
    exact absurd h (by simp)

theorem runSeq_inv (qs : List Query) (st : FS) (h : slotInv st) :
    slotInv (runSeq st qs) := by
  induction qs generalizing st with
  | nil => exact h
  | cons q qs ih => exact ih _ (runM_inv st q h)

/-! ## Claim theorems -/

/-- **C1.** The claim is wrong about the code (the code is the slip): the
source-to-RGB converter registered for `"hsv"` does *not* compute the
standard HSV-to-RGB formula on `(h/360, s/100, v/100)` — it swaps
saturation and value — and the RGB-to-`"hsv"` converter computes the
scaled HLS representation, not the standard RGB-to-HSV conversion.  At
the parsed triple `(0, 100, 50)` the code yields `(1, 1/2, 1/2)` where
the standard formula `hsv_to_rgb (0/360) (100/100) (50/100)` yields
`(1/2, 0, 0)`; at the RGB triple `(1, 0, 0)` the code yields
`(0, 50, 100)` where the standard conversion (rescaled to degrees and
percent) yields `(0, 100, 100)`. -/
theorem c1_hsv_converters_not_standard :
    converters_from_hsv 0 100 50 = (1, 1/2, 1/2) ∧
    hsv_to_rgb (0/360) (100/100) (50/100) = (1/2, 0, 0) ∧
    ((1 : ℚ), (1 : ℚ)/2, (1 : ℚ)/2) ≠ ((1 : ℚ)/2, 0, 0) ∧
    converters_to_hsv 1 0 0 = (0, 50, 100) ∧
    transformHSLHSV (rgb_to_hsv 1 0 0).1 (rgb_to_hsv 1 0 0).2.1
      (rgb_to_hsv 1 0 0).2.2 = (0, 100, 100) ∧
    ((0 : ℚ), (50 : ℚ), (100 : ℚ)) ≠ ((0 : ℚ), 100, 100) := by
  refine ⟨by with_unfolding_all rfl, by with_unfolding_all rfl, ?_,
    by with_unfolding_all rfl, by with_unfolding_all rfl, ?_⟩
  · simp only [ne_eq, Prod.mk.injEq, not_and]
    intro h
    norm_num at h
  · simp only [ne_eq, Prod.mk.injEq, not_and]
    intro _ h
    norm_num at h

/-- **C2, counterexample.** The round trip does not preserve the fields
for every tag: under the `"hsv"` tag the triple `(0, 100, 100)` (hue 0,
saturation 100 — nonzero — and value 100) comes back as `(0, 50, 100)`,
changing the middle field from 100 to 50; and under the `"hls"` tag the
triple `(120, 100, 50)` (lightness 100, saturation 50 ≠ 0) comes back as
`(0, 100, 0)`, losing both the hue and the saturation. -/
theorem c2_roundtrip_counterexample :
    roundtrip_hsv 0 100 100 = (0, 50, 100) ∧ ((50 : ℚ) ≠ 100) ∧
    roundtrip_hls 120 100 50 = (0, 100, 0) ∧ ((0 : ℚ) ≠ 50) :=
  ⟨by with_unfolding_all rfl, by norm_num,
   by with_unfolding_all rfl, by norm_num⟩

/-- **C2, amended.** For the `"hls"` and `"hsl"` tags (not `"hsv"`, whose
converters mix HSV and HLS math and are not mutually inverse), a parsed
triple with hue in `[0, 360)` and the other fields in `[0, 100]` round
trips through canonical RGB exactly whenever the saturation is nonzero
and the lightness is strictly between 0 and 100; in the degenerate cases
(saturation 0, or lightness 0 or 100) the color collapses to grey and
only the lightness field survives the round trip (hue and saturation
come back 0). -/
theorem c2_roundtrip_amended (h l s : ℚ)
    (hh0 : 0 ≤ h) (hh1 : h < 360) (hl0 : 0 ≤ l) (hl1 : l ≤ 100)
    (hs0 : 0 ≤ s) (hs1 : s ≤ 100) :
    (s ≠ 0 → 0 < l → l < 100 →
      roundtrip_hls h l s = (h, l, s) ∧ roundtrip_hsl h s l = (h, s, l)) ∧
    ((s = 0 ∨ l = 0 ∨ l = 100) →
      roundtrip_hls h l s = (0, l, 0) ∧ (roundtrip_hsl h s l).2.2 = l) := by
  have hpm : pmod h 360 = h := pmod_eq_self h 360 (by norm_num) hh0 hh1
  constructor
  · intro hsne hl0' hl1'
    have hrt := hls_roundtrip_unit (h/360) (l/100) (s/100)
      (div_nonneg hh0 (by norm_num)) ((div_lt_one (by norm_num)).mpr hh1)
      (div_pos hl0' (by norm_num)) ((div_lt_one (by norm_num)).mpr hl1')
      (div_pos (lt_of_le_of_ne hs0 (Ne.symm hsne)) (by norm_num))
      ((div_le_one (by norm_num)).mpr hs1)
    constructor
    · simp only [roundtrip_hls, converters_from_hls, converters_to_hls]
      rw [hpm, hrt]
      simp only [transformHSLHSV, Prod.mk.injEq]
      refine ⟨by field_simp, by field_simp, by field_simp⟩
    · simp only [roundtrip_hsl, converters_from_hsl, converters_to_hsl]
      rw [hpm, hrt]
      simp only [transformHSLHSV, toggleHSLHLS, Prod.mk.injEq]
      refine ⟨by field_simp, by field_simp, by field_simp⟩
  · intro hcase
    have hcase' : s/100 = 0 ∨ l/100 = 0 ∨ l/100 = 1 := by
      rcases hcase with hq | hq | hq
      · left; rw [hq]; norm_num
      · right; left; rw [hq]; norm_num
      · right; right; rw [hq]; norm_num
    have hdeg := hls_roundtrip_degen (h/360) (l/100) (s/100) hcase'
    constructor
    · simp only [roundtrip_hls, converters_from_hls, converters_to_hls]
      rw [hpm, hdeg]
      simp only [transformHSLHSV, Prod.mk.injEq]
      refine ⟨by norm_num, by field_simp, by norm_num⟩
    · simp only [roundtrip_hsl, converters_from_hsl, converters_to_hsl]
      rw [hpm, hdeg]
      simp only [transformHSLHSV, toggleHSLHLS]
      field_simp

/-- Witness for the amended C2 at the concrete `"hls"` triple
`(240, 25, 60)`. -/
theorem c2_roundtrip_amended_witness :
    roundtrip_hls 240 25 60 = (240, 25, 60) :=
  ((c2_roundtrip_amended 240 25 60 (by norm_num) (by norm_num) (by norm_num)
      (by norm_num) (by norm_num) (by norm_num)).1 (by norm_num)
      (by norm_num) (by norm_num)).1

/-- **C3.** The claim is wrong about the code (the code is the slip): a
malformed payload under the `"hls"` tag does *not* make `run` return no
results by normal return.  `HLSHSVParser` subscripts the `False` that
`baseParser` returns for the wrong-arity payload `"1,2"`, raising a
`TypeError`, so `run` on the query `"hls1,2"` raises instead of
returning. -/
theorem c3_malformed_hls_payload_raises :
    HLSHSVParser "1,2".toList = .error .typeError ∧
    (runM ⟨0, [], none⟩ ⟨"hls1,2".toList, "hls1,2".toList⟩).2 =
      .error .typeError :=
  ⟨by with_unfolding_all rfl, by with_unfolding_all rfl⟩

/-- **C4.** On the query `"rgb100,60,20"`, `run` returns by normal
return exactly 5 result items, whose destination systems are, in order,
hex, yiq, hls, hsl, hsv (so none is `"rgb"`), and the display text of
the hex item is `#643c14`. -/
theorem c4_rgb_query_fanout :
    isOkSome (runM ⟨0, [], none⟩
        ⟨"rgb100,60,20".toList, "rgb100,60,20".toList⟩).2 = true ∧
    (itemsOf (runM ⟨0, [], none⟩
        ⟨"rgb100,60,20".toList, "rgb100,60,20".toList⟩).2).length = 5 ∧
    (itemsOf (runM ⟨0, [], none⟩
        ⟨"rgb100,60,20".toList, "rgb100,60,20".toList⟩).2).map
        (fun i => i.subDest) =
      ["hex".toList, "yiq".toList, "hls".toList, "hsl".toList,
       "hsv".toList] ∧
    ((itemsOf (runM ⟨0, [], none⟩
        ⟨"rgb100,60,20".toList, "rgb100,60,20".toList⟩).2).map
        (fun i => i.subDest)).contains "rgb".toList = false ∧
    (itemsOf (runM ⟨0, [], none⟩
        ⟨"rgb100,60,20".toList, "rgb100,60,20".toList⟩).2).head?.map
        (fun i => i.text) = some (.lit "#643c14".toList) :=
  ⟨by with_unfolding_all rfl, by with_unfolding_all rfl,
   by with_unfolding_all rfl, by with_unfolding_all rfl,
   by with_unfolding_all rfl⟩

/-- **C5, counterexample.** `hexParser` does not accept only hex-digit
strings: `"zzz"` contains no hex digit beyond none at all, yet
`hexParser "zzz"` accepts it (the compiled pattern is
`[a-zA-Z0-9]{3}|[a-zA-Z0-9]{6}`, an alphanumeric — not hex-digit —
class). -/
theorem c5_hexParser_accepts_nonhex :
    hexParser "zzz".toList = some "zzz".toList ∧ hexDigitVal 'z' = none :=
  ⟨by with_unfolding_all rfl, by with_unfolding_all rfl⟩

/-- **C5, amended.** `hexParser` strips all leading spaces and all
leading `#` characters and accepts exactly the strings whose remainder
has 3 or 6 characters, all ASCII **alphanumeric** (the compiled pattern
is the alphanumeric class `[a-zA-Z0-9]`, not a hex-digit class),
returning the `False` sentinel for every other input; in particular
`hexParser "#fff"` is accepted and expands via `hex_to_rgb` to
`(1, 1, 1)`, while `hexParser "#ff"` is rejected. -/
theorem c5_hexParser_amended :
    (∀ s : List Char,
      (hexParser s).isSome = true ↔
        (((s.dropWhile (· == ' ')).dropWhile (· == '#')).length = 3 ∨
         ((s.dropWhile (· == ' ')).dropWhile (· == '#')).length = 6) ∧
        ((s.dropWhile (· == ' ')).dropWhile (· == '#')).all isAlnumChar
          = true) ∧
    hexParser "#fff".toList = some "fff".toList ∧
    hex_to_rgb "fff".toList = .ok (1, 1, 1) ∧
    hexParser "#ff".toList = none := by
  refine ⟨fun s => ?_, by with_unfolding_all rfl,
    by with_unfolding_all rfl, by with_unfolding_all rfl⟩
  unfold hexParser
  by_cases h0 : (s.dropWhile (· == ' ')).length = 0
  · have hnil : s.dropWhile (· == ' ') = [] := List.length_eq_zero.mp h0
    rw [if_pos h0]
    simp [hnil]
  · rw [if_neg h0]
    by_cases hlen :
        ((s.dropWhile (· == ' ')).dropWhile (· == '#')).length = 3 ∨
        ((s.dropWhile (· == ' ')).dropWhile (· == '#')).length = 6
    · rw [if_pos hlen]
      have hbeq :
          (((s.dropWhile (· == ' ')).dropWhile (· == '#')).length == 3 ||
           ((s.dropWhile (· == ' ')).dropWhile (· == '#')).length == 6)
            = true := by
        rcases hlen with h | h <;> simp [h]
      cases hall :
          ((s.dropWhile (· == ' ')).dropWhile (· == '#')).all isAlnumChar <;>
        simp [hexPatternMatch, hbeq, hall, hlen]
    · rw [if_neg hlen]
      simp [hlen]

/-- **C6.** 8-bit quantization round trip: for all `r, g, b ∈ [0, 1]`,
`hex_to_rgb (rgb_to_hex r g b)` succeeds and each component of the
result differs from the corresponding original by at most `1/255`. -/
theorem c6_hex_roundtrip (r g b : ℚ)
    (hr0 : 0 ≤ r) (hr1 : r ≤ 1) (hg0 : 0 ≤ g) (hg1 : g ≤ 1)
    (hb0 : 0 ≤ b) (hb1 : b ≤ 1) :
    ∃ r' g' b', hex_to_rgb (rgb_to_hex r g b) = .ok (r', g', b') ∧
      |r - r'| ≤ 1 / 255 ∧ |g - g'| ≤ 1 / 255 ∧ |b - b'| ≤ 1 / 255 := by
  obtain ⟨hrlt, hrb⟩ := channel_floor r hr0 hr1
  obtain ⟨hglt, hgb⟩ := channel_floor g hg0 hg1
  obtain ⟨hblt, hbb⟩ := channel_floor b hb0 hb1
  refine ⟨_, _, _, ?_, hrb, hgb, hbb⟩
  have hshape : rgb_to_hex r g b =
      '#' :: (pyHex02 ((pyInt (min 255 (max 0 (r * 255)))).toNat) ++
        pyHex02 ((pyInt (min 255 (max 0 (g * 255)))).toNat) ++
        pyHex02 ((pyInt (min 255 (max 0 (b * 255)))).toNat)) := rfl
  rw [hshape, hex_to_rgb_bytes _ _ _ hrlt hglt hblt]

/-- Witness for C6 at the concrete triple `(1/2, 0, 1)`. -/
theorem c6_hex_roundtrip_witness :
    ∃ r' g' b', hex_to_rgb (rgb_to_hex (1/2) 0 1) = .ok (r', g', b') ∧
      |(1 : ℚ)/2 - r'| ≤ 1 / 255 ∧ |(0 : ℚ) - g'| ≤ 1 / 255 ∧
      |(1 : ℚ) - b'| ≤ 1 / 255 :=
  c6_hex_roundtrip (1/2) 0 1 (by norm_num) (by norm_num) (by norm_num)
    (by norm_num) (by norm_num) (by norm_num)

/-- **C7.** The `"hls"` and `"hsl"` tags implement the same math,
differing only in the order of the two non-hue fields:
`converters_from["hsl"](h, s, l) = converters_from["hls"](h, l, s)`, and
`converters_to["hsl"]` is `converters_to["hls"]` with its second and
third components swapped. -/
theorem c7_hls_hsl_field_order :
    (∀ h s l : ℚ, converters_from_hsl h s l = converters_from_hls h l s) ∧
    (∀ r g b : ℚ,
      converters_to_hsl r g b =
        ((converters_to_hls r g b).1, (converters_to_hls r g b).2.2,
         (converters_to_hls r g b).2.1)) :=
  ⟨fun _ _ _ => rfl, fun _ _ _ => rfl⟩

/-- **C10.** The RGB-to-`"hsv"` and RGB-to-`"hls"` converters are
extensionally the same function: both compute the scaled HLS
representation of the RGB triple. -/
theorem c10_to_hsv_eq_to_hls :
    ∀ r g b : ℚ, converters_to_hsv r g b = converters_to_hls r g b :=
  fun _ _ _ => rfl

/-- **C8.** `handleQuery` never lets an exception escape: whenever `run`
raises, `handleQuery` serializes its trace to the critical log sink and
hands the caller no results; whenever `run` returns normally,
`handleQuery` passes its value through with no log line.  (In this
embedding `handleQueryM`'s total, exception-free type is itself the
no-propagation guarantee.) -/
theorem c8_handleQuery_catches (st : FS) (q : Query) :
    (∀ e, (runM st q).2 = .error e →
      handleQueryM st q = ((runM st q).1, none, [.critical e])) ∧
    (∀ v, (runM st q).2 = .ok v →
      handleQueryM st q = ((runM st q).1, v, [])) := by
  rcases hr : runM st q with ⟨st', r⟩
  constructor
  · intro e he
    simp only at he
    subst he
    simp [handleQueryM, hr]
  · intro v hv
    simp only at hv
    subst hv
    simp [handleQueryM, hr]

/-- Witness for C8: on the query `"hls1,2"`, `run` raises a `TypeError`
and `handleQuery` indeed swallows it, logs it critically and returns no
results. -/
theorem c8_handleQuery_catches_witness :
    handleQueryM ⟨0, [], none⟩ ⟨"hls1,2".toList, "hls1,2".toList⟩ =
      ((runM ⟨0, [], none⟩ ⟨"hls1,2".toList, "hls1,2".toList⟩).1, none,
       [.critical .typeError]) :=
  (c8_handleQuery_catches ⟨0, [], none⟩
      ⟨"hls1,2".toList, "hls1,2".toList⟩).1 .typeError
    (by with_unfolding_all rfl)

/-- **C9.** Single-slot temp-file invariant: starting from a state whose
live temp files are exactly the pointed-to one, any sequence of `run`
invocations preserves that invariant (so at most one transient file is
live at any time), and every `run` that returns results replaces the
previously created file — the new state points at the freshly created
file, that file is the only live one, and the old pointed-to file is no
longer live. -/
theorem c9_single_slot (st : FS) (qs : List Query) (h : slotInv st) :
    slotInv (runSeq st qs) ∧
    (runSeq st qs).live.length ≤ 1 ∧
    (∀ q items, (runM st q).2 = .ok (some items) →
      (runM st q).1.pointer = some st.next ∧
      (runM st q).1.live = [st.next] ∧
      ∀ f, st.pointer = some f → f ∉ (runM st q).1.live ∧ f ≠ st.next) := by
  have hseq := runSeq_inv qs st h
  refine ⟨hseq, ?_, ?_⟩
  · rw [hseq.1]
    cases (runSeq st qs).pointer <;> simp [Option.toList]
  · intro q items hok
    have hst := runM_success st q items h hok
    rw [hst]
    refine ⟨rfl, rfl, ?_⟩
    intro f hf
    have hfl : f ∈ st.live := by rw [h.1, hf]; simp [Option.toList]
    have := h.2 f hfl
    constructor
    · simp
      omega
    · omega

/-- Witness for C9: from the empty initial state (no live file, empty
pointer), running the recognized query `"rgb100,60,20"` and then an
unrecognized one keeps the invariant, and the successful query's
replacement behaviour holds. -/
theorem c9_single_slot_witness :
    slotInv (runSeq ⟨0, [], none⟩
      [⟨"rgb100,60,20".toList, "rgb100,60,20".toList⟩,
       ⟨"xyz1,2,3".toList, "xyz1,2,3".toList⟩]) :=
  (c9_single_slot ⟨0, [], none⟩
      [⟨"rgb100,60,20".toList, "rgb100,60,20".toList⟩,
       ⟨"xyz1,2,3".toList, "xyz1,2,3".toList⟩]
      ⟨rfl, by simp⟩).1

end ColorConverter
